import Mathlib

/-!
Shallow embedding of the report normalization and severity aggregation
pipeline of `scripts/preconversion_assessment_script.py`: the severity
taxonomy `STATUS_CODE`, the aggregation `collect_report_level` together with
the status selection done in `main`, the human message generation
`generate_report_message`, the raw message transform chain
(`_generate_message_key`, `_rename_dictionary_key`, `_generate_detail_block`,
`apply_message_transform`, `transform_raw_data`), the `OutputCollector`
with its `to_dict` serialization, and the try/except boundary of `main`.

Python dictionaries are modelled as insertion ordered association lists with
string keys (CPython dicts preserve insertion order); a Python statement that
can raise (`KeyError`, `IndexError`) is modelled with `Option`, the `none`
case standing for the raised exception that propagates to the caller.
-/

/-- JSON like values manipulated by the script: strings, arrays and objects.
The raw report parsed from the report JSON file and the normalized entries
are Python dictionaries with string keys. -/
inductive Value where
  | str : String → Value
  | list : List Value → Value
  | dict : List (String × Value) → Value

/-- A Python dictionary with string keys, as an insertion ordered
association list. -/
abbrev Dict := List (String × Value)

/-- Dictionary lookup `d[k]`: the first (unique) binding for `k`; `none`
models the `KeyError` raised when the key is absent. -/
def dictGet (d : Dict) (k : String) : Option Value :=
  match d with
  | [] => none
  | (k₀, v) :: rest => if k₀ = k then some v else dictGet rest k

/-- Dictionary assignment `d[k] = v`: replaces the binding in place when the
key is present, otherwise appends it at the end (CPython insertion order). -/
def dictSet (d : Dict) (k : String) (v : Value) : Dict :=
  match d with
  | [] => [(k, v)]
  | (k₀, v₀) :: rest => if k₀ = k then (k₀, v) :: rest else (k₀, v₀) :: dictSet rest k v

/-- Dictionary deletion `del d[k]`: removes the binding for `k`. The script
only deletes keys it has just read, so the key is always present there. -/
def dictErase (d : Dict) (k : String) : Dict :=
  match d with
  | [] => []
  | (k₀, v₀) :: rest => if k₀ = k then rest else (k₀, v₀) :: dictErase rest k

/-- The severity taxonomy `STATUS_CODE`: severity name to rank, in the
source order SUCCESS, INFO, WARNING, SKIP, OVERRIDABLE, ERROR. -/
def STATUS_CODE : List (String × Nat) :=
  [("SUCCESS", 0), ("INFO", 25), ("WARNING", 51), ("SKIP", 101),
   ("OVERRIDABLE", 152), ("ERROR", 202)]

/-- One raw diagnostic message of the convert2rhel report. Per the input
contract all five fields are strings. -/
structure RawMessage where
  id : String
  level : String
  description : String
  remediation : String
  diagnosis : String

/-- One action of the raw report: its own `result` message plus an ordered
list of further messages. -/
structure ActionResult where
  result : RawMessage
  messages : List RawMessage

/-- The `actions` mapping of the raw report: action id to action result, in
dict iteration (= insertion) order. -/
abbrev Actions := List (String × ActionResult)

/-- The dictionary a `RawMessage` is parsed to from the report JSON file. -/
def RawMessage.toDict (m : RawMessage) : Dict :=
  [("id", .str m.id), ("level", .str m.level), ("description", .str m.description),
   ("remediation", .str m.remediation), ("diagnosis", .str m.diagnosis)]

/-- The loop of `collect_report_level` building `action_level_combined`: for
each action of the mapping, first the `result` level of the action, then the
level of each of its messages, in order. -/
def action_level_combined (action_results : Actions) : List String :=
  action_results.foldl
    (fun acc p => p.2.messages.foldl (fun a m => a ++ [m.level]) (acc ++ [p.2.result.level]))
    []

/-- The comprehension of `collect_report_level` keeping only levels that are
keys of `STATUS_CODE` (`level in STATUS_CODE`). -/
def valid_action_levels (action_results : Actions) : List String :=
  (action_level_combined action_results).filter
    (fun level => (STATUS_CODE.lookup level).isSome)

/-- The sort key `STATUS_CODE[status]` of `collect_report_level`. The sort
applies it only to filtered levels, where the lookup succeeds, so the
default value is never observed. -/
def statusRank (status : String) : Nat := (STATUS_CODE.lookup status).getD 0

/-- Embedding of `collect_report_level`: gather all levels, keep the
recognized ones, and stably sort them by rank, highest first
(`list.sort(key=..., reverse=True)` in CPython is a stable descending
sort, here a stable merge sort with the reversed comparison). -/
def collect_report_level (action_results : Actions) : List String :=
  (valid_action_levels action_results).mergeSort
    (fun a b => statusRank b ≤ statusRank a)

/-- The status selection of `main`: `output.status = combined_levels[0]`;
`none` models the `IndexError` raised on an empty list, which propagates to
the except clauses of `main`. -/
def pipeline_status (action_results : Actions) : Option String :=
  (collect_report_level action_results)[0]?

/-- Embedding of `generate_report_message`: three successive `if` statements
comparing `STATUS_CODE[highest_status]` with `STATUS_CODE["WARNING"]`; an
unrecognized status raises `KeyError`, modelled as `none`. -/
def generate_report_message (highest_status : String) : Option String := do
  let rank ← STATUS_CODE.lookup highest_status
  let warning ← STATUS_CODE.lookup "WARNING"
  let message := ""
  let message := if rank < warning
    then "No problems found. The system is ready for conversion." else message
  let message := if rank = warning
    then "The conversion can proceed. However, there is one or more warnings about issues that might occur after the conversion."
    else message
  let message := if warning < rank
    then "The conversion cannot proceed. You must resolve existing issues to perform the conversion."
    else message
  pure message

/-- Embedding of `_generate_message_key`: on a copy of the message, set
`key = "<action_id>::<id>"` and then delete `id`. Per the input contract the
`id` field is a string; `none` models the `KeyError` on a missing `id` (a
non string `id` is outside the modelled input contract). -/
def _generate_message_key (message : Dict) (action_id : String) : Option Dict :=
  match dictGet message "id" with
  | some (.str msgId) =>
      some (dictErase (dictSet message "key" (.str (action_id ++ "::" ++ msgId))) "id")
  | _ => none

/-- Embedding of `_rename_dictionary_key`:
`new_message[new_key] = new_message.pop(old_key)` on a copy; `none` models
the `KeyError` when `old_key` is absent. -/
def _rename_dictionary_key (message : Dict) (new_key old_key : String) : Option Dict :=
  match dictGet message old_key with
  | some v => some (dictSet (dictErase message old_key) new_key v)
  | none => none

/-- Embedding of `_generate_detail_block`: read `remediation` and
`diagnosis`, delete both flat fields (in that order) and nest the two values
under `detail`; `none` models the `KeyError` when either field is absent. -/
def _generate_detail_block (message : Dict) : Option Dict :=
  match dictGet message "remediation", dictGet message "diagnosis" with
  | some remediation, some diagnosis =>
      some (dictSet (dictErase (dictErase message "remediation") "diagnosis") "detail"
        (.dict [("remediation", .dict [("context", remediation)]),
                ("diagnosis", .dict [("context", diagnosis)])]))
  | _, _ => none

/-- Embedding of `apply_message_transform`: the key derivation, the two key
renames, the detail block, then the empty `modifiers` list appended last. -/
def apply_message_transform (message : Dict) (action_id : String) : Option Dict := do
  let m₁ ← _generate_message_key message action_id
  let m₂ ← _rename_dictionary_key m₁ "severity" "level"
  let m₃ ← _rename_dictionary_key m₂ "summary" "description"
  let m₄ ← _generate_detail_block m₃
  pure (dictSet m₄ "modifiers" (.list []))

/-- Body of the inner loop of `transform_raw_data`:
`new_data.append(apply_message_transform(message, action_id))` for one
message. -/
def transform_append (action_id : String) (acc : List Dict) (message : RawMessage) :
    Option (List Dict) := do
  let t ← apply_message_transform message.toDict action_id
  pure (acc ++ [t])

/-- Body of the outer loop of `transform_raw_data` for one
`(action_id, result)` item: append one transformed entry per message, then
the transformed own result of the action. -/
def transform_action (new_data : List Dict) (p : String × ActionResult) :
    Option (List Dict) := do
  let withMessages ← p.2.messages.foldlM (transform_append p.1) new_data
  let tr ← apply_message_transform p.2.result.toDict p.1
  pure (withMessages ++ [tr])

/-- Embedding of `transform_raw_data`, on the `actions` mapping
(`raw_data["actions"]`): the two nested append loops of the source, a
failing message transform propagating as in Python. -/
def transform_raw_data (actions : Actions) : Option (List Dict) :=
  actions.foldlM transform_action []

/-- The normalized entry `apply_message_transform` produces for a well
formed raw message (proved below in `apply_message_transform_toDict`). -/
def transformedDict (m : RawMessage) (action_id : String) : Dict :=
  [("key", .str (action_id ++ "::" ++ m.id)),
   ("severity", .str m.level),
   ("summary", .str m.description),
   ("detail", .dict [("remediation", .dict [("context", .str m.remediation)]),
                     ("diagnosis", .dict [("context", .str m.diagnosis)])]),
   ("modifiers", .list [])]

/-- The (action id, message id) pairs of a raw report, the own `result`
message of each action included, in emission order. -/
def actionPairs (actions : Actions) : List (String × String) :=
  actions.flatMap
    (fun p => p.2.messages.map (fun m => (p.1, m.id)) ++ [(p.1, p.2.result.id)])

/-- The structured `report_json` object emitted when entries exist. -/
structure ReportJson where
  tasks_format_version : String
  tasks_format_id : String
  entries : List Dict

/-- The four keys of the dictionary returned by `OutputCollector.to_dict`,
the serialized output report. -/
structure OutputDict where
  status : String
  message : String
  report : String
  report_json : Option ReportJson

/-- Embedding of `OutputCollector.__init__`: the field defaults are the
keyword defaults of the constructor; `report_json` always starts as `None`
and `tasks_format_version` and `tasks_format_id` are always set to the two
constants. -/
structure OutputCollector where
  status : String := ""
  message : String := ""
  report : String := ""
  tasks_format_version : String := "1.0"
  tasks_format_id : String := "oamg-format"
  entries : Option (List Dict) := none
  report_json : Option ReportJson := none

/-- Embedding of `OutputCollector.to_dict`: `if self.entries:` is Python
truthiness, false for both `None` and the empty list; only a non empty
entry list replaces `report_json`. -/
def OutputCollector.to_dict (self : OutputCollector) : OutputDict :=
  let report_json :=
    match self.entries with
    | some (e :: es) =>
        some { tasks_format_version := self.tasks_format_version,
               tasks_format_id := self.tasks_format_id,
               entries := e :: es }
    | _ => self.report_json
  { status := self.status, message := self.message, report := self.report,
    report_json := report_json }

/-- A failure reaching the two except clauses of `main`: either a
`ProcessError` raised during setup, install or run, or any other exception
together with its `str()` text. -/
inductive Failure where
  | processError (message : String)
  | unexpected (text : String)

/-- The message text the except clauses extract from a failure:
`exception.message` for a `ProcessError`, `str(exception)` otherwise. -/
def Failure.text : Failure → String
  | .processError message => message
  | .unexpected text => text

/-- The try/except boundary of `main`: a successful run keeps the collector
the try body filled in, while a failure replaces it with
`OutputCollector(status="ERROR", report=<failure text>)`. The function is
total: no exception escapes past this boundary. -/
def main_output (result : Except Failure OutputCollector) : OutputCollector :=
  match result with
  | .ok output => output
  | .error (.processError message) => { status := "ERROR", report := message }
  | .error (.unexpected text) => { status := "ERROR", report := text }

/-! Helper lemmas about the transform chain. -/

/-- On the dictionary of a well formed raw message the whole transform chain
succeeds and produces the normalized entry `transformedDict`. -/
theorem apply_message_transform_toDict (m : RawMessage) (action_id : String) :
    apply_message_transform m.toDict action_id = some (transformedDict m action_id) := rfl

/-- The inner message loop of `transform_raw_data`, with explicit
accumulator: it appends one transformed entry per message, in order. -/
theorem transform_messages_foldlM (action_id : String) (msgs : List RawMessage)
    (acc : List Dict) :
    msgs.foldlM (transform_append action_id) acc
      = some (acc ++ msgs.map (fun m => transformedDict m action_id)) := by
  induction msgs generalizing acc with
  | nil => simp
  | cons m ms ih =>
      exact (ih (acc ++ [transformedDict m action_id])).trans (by simp)

/-- One step of the outer loop of `transform_raw_data` on a well formed
action. -/
theorem transform_action_eq (acc : List Dict) (p : String × ActionResult) :
    transform_action acc p
      = some ((acc ++ p.2.messages.map (fun m => transformedDict m p.1))
          ++ [transformedDict p.2.result p.1]) := by
  unfold transform_action
  rw [transform_messages_foldlM]
  rfl

/-- The outer action loop of `transform_raw_data`, with explicit
accumulator. -/
theorem transform_raw_data_foldlM (actions : Actions) (acc : List Dict) :
    actions.foldlM transform_action acc
      = some (acc ++ actions.flatMap
          (fun p => p.2.messages.map (fun m => transformedDict m p.1)
            ++ [transformedDict p.2.result p.1])) := by
  induction actions generalizing acc with
  | nil => simp
  | cons a as ih =>
      rw [List.foldlM_cons, transform_action_eq]
      exact (ih ((acc ++ a.2.messages.map (fun m => transformedDict m a.1))
        ++ [transformedDict a.2.result a.1])).trans (by simp)

/-- Closed form of `transform_raw_data`: one entry per message in order,
then the entry of the own result of the action, action groups in mapping
iteration order. -/
theorem transform_raw_data_eq (actions : Actions) :
    transform_raw_data actions
      = some (actions.flatMap
          (fun p => p.2.messages.map (fun m => transformedDict m p.1)
            ++ [transformedDict p.2.result p.1])) := by
  simpa [transform_raw_data] using transform_raw_data_foldlM actions []

/-! Helper lemmas about severity aggregation. -/

/-- The sorted aggregation output is a permutation of the filtered levels. -/
theorem collect_report_level_perm (action_results : Actions) :
    (collect_report_level action_results).Perm (valid_action_levels action_results) :=
  List.mergeSort_perm _ _

/-- The aggregation output is sorted by rank, highest first. -/
theorem collect_report_level_sorted (action_results : Actions) :
    List.Pairwise (fun a b => decide (statusRank b ≤ statusRank a) = true)
      (collect_report_level action_results) := by
  refine @List.sorted_mergeSort String (fun a b => decide (statusRank b ≤ statusRank a))
    ?_ ?_ (valid_action_levels action_results)
  · intro a b c hab hbc
    simp only [decide_eq_true_eq] at hab hbc ⊢
    exact le_trans hbc hab
  · intro a b
    simp only [Bool.or_eq_true, decide_eq_true_eq]
    exact Nat.le_total _ _

/-- Inversion of a successful `STATUS_CODE` lookup: the six recognized
severity names and their ranks. -/
theorem STATUS_CODE_lookup_cases (s : String) (r : Nat)
    (h : STATUS_CODE.lookup s = some r) :
    (s = "SUCCESS" ∧ r = 0) ∨ (s = "INFO" ∧ r = 25) ∨ (s = "WARNING" ∧ r = 51) ∨
    (s = "SKIP" ∧ r = 101) ∨ (s = "OVERRIDABLE" ∧ r = 152) ∨ (s = "ERROR" ∧ r = 202) := by
  simp only [STATUS_CODE, List.lookup] at h
  repeat' split at h
  all_goals simp_all

/-! Helper lemmas about normalized entry keys. -/

/-- The `key` field of a normalized entry. -/
theorem transformedDict_key (m : RawMessage) (action_id : String) :
    dictGet (transformedDict m action_id) "key"
      = some (.str (action_id ++ "::" ++ m.id)) := rfl

/-- The first component of any pair of `actionPairs` is an action id of the
report. -/
theorem actionPairs_fst (actions : Actions) (q : String × String)
    (hq : q ∈ actionPairs actions) : ∃ p ∈ actions, q.1 = p.1 := by
  unfold actionPairs at hq
  rw [List.mem_flatMap] at hq
  obtain ⟨p, hp, hq'⟩ := hq
  refine ⟨p, hp, ?_⟩
  rcases List.mem_append.mp hq' with hm | hm
  · obtain ⟨m, _, rfl⟩ := List.mem_map.mp hm
    rfl
  · rw [List.mem_singleton] at hm
    subst hm
    rfl

/-- The `key` fields of the normalized entries are exactly the
`"<action_id>::<message_id>"` strings of `actionPairs`, in order. -/
theorem transform_keys (actions : Actions) :
    (actions.flatMap
        (fun p => p.2.messages.map (fun m => transformedDict m p.1)
          ++ [transformedDict p.2.result p.1])).map (fun d => dictGet d "key")
      = (actionPairs actions).map (fun q => some (Value.str (q.1 ++ "::" ++ q.2))) := by
  induction actions with
  | nil => rfl
  | cons a as ih =>
      simp only [actionPairs, List.flatMap_cons, List.map_append, List.map_map,
        List.map_cons, List.map_nil] at ih ⊢
      rw [ih]
      rfl

/-- Splitting at the `"::"` separator is injective when the left parts are
free of the colon character (list form). -/
theorem colon_sep_injective_list : ∀ (a₁ a₂ m₁ m₂ : List Char),
    ':' ∉ a₁ → ':' ∉ a₂ →
    a₁ ++ ':' :: ':' :: m₁ = a₂ ++ ':' :: ':' :: m₂ → a₁ = a₂ ∧ m₁ = m₂ := by
  intro a₁
  induction a₁ with
  | nil =>
      intro a₂ m₁ m₂ h₁ h₂ h
      cases a₂ with
      | nil => simpa using h
      | cons c cs =>
          simp only [List.nil_append, List.cons_append] at h
          injection h with hc htl
          subst hc
          exact absurd (List.mem_cons_self _ _) h₂
  | cons c cs ih =>
      intro a₂ m₁ m₂ h₁ h₂ h
      cases a₂ with
      | nil =>
          simp only [List.nil_append, List.cons_append] at h
          injection h with hc htl
          subst hc
          exact absurd (List.mem_cons_self _ _) h₁
      | cons d ds =>
          simp only [List.cons_append] at h
          injection h with hcd htl
          subst hcd
          have h₁' : ':' ∉ cs := fun hm => h₁ (List.mem_cons_of_mem _ hm)
          have h₂' : ':' ∉ ds := fun hm => h₂ (List.mem_cons_of_mem _ hm)
          obtain ⟨he, hm⟩ := ih ds m₁ m₂ h₁' h₂' htl
          exact ⟨by rw [he], hm⟩

/-- Splitting at the `"::"` separator is injective when the left parts are
free of the colon character (string form). -/
theorem colon_sep_injective (a₁ a₂ m₁ m₂ : String)
    (h₁ : (':' : Char) ∉ a₁.data) (h₂ : (':' : Char) ∉ a₂.data)
    (h : a₁ ++ "::" ++ m₁ = a₂ ++ "::" ++ m₂) : a₁ = a₂ ∧ m₁ = m₂ := by
  have hd := congrArg String.data h
  simp only [String.data_append] at hd
  have hlist := colon_sep_injective_list a₁.data a₂.data m₁.data m₂.data h₁ h₂
    (by simpa using hd)
  exact ⟨String.ext hlist.1, String.ext hlist.2⟩

/-! Claim theorems. -/

/-- C1: for every raw report whose levels include at least one recognized
severity name, the status chosen by the pipeline (the first element of the
sorted aggregation, as selected in `main`) is one of the recognized levels
of the report and has the maximum rank among them; unrecognized level names
are excluded by the filtering. -/
theorem collect_report_level_max (action_results : Actions)
    (h : valid_action_levels action_results ≠ []) :
    ∃ status, pipeline_status action_results = some status ∧
      status ∈ valid_action_levels action_results ∧
      ∀ level ∈ valid_action_levels action_results,
        statusRank level ≤ statusRank status := by
  have hperm := collect_report_level_perm action_results
  have hsorted := collect_report_level_sorted action_results
  rcases hcl : collect_report_level action_results with _ | ⟨s, rest⟩
  · rw [hcl] at hperm
    exact absurd (List.nil_perm.mp hperm) h
  · refine ⟨s, ?_, ?_, ?_⟩
    · simp [pipeline_status, hcl]
    · rw [hcl] at hperm
      exact hperm.mem_iff.mp (List.mem_cons_self s rest)
    · intro level hlevel
      rw [hcl] at hperm hsorted
      rcases List.mem_cons.mp (hperm.mem_iff.mpr hlevel) with rfl | hrest
      · exact le_refl _
      · have := (List.pairwise_cons.mp hsorted).1 level hrest
        simpa using this

/-- Sample raw report of the spec: action A1 with result SUCCESS and one
WARNING message, action A2 with result ERROR and no messages. -/
def sampleActions : Actions :=
  [("A1", { result := { id := "r", level := "SUCCESS", description := "d1",
                        remediation := "rem1", diagnosis := "diag1" },
            messages := [{ id := "m1", level := "WARNING", description := "d2",
                           remediation := "rem2", diagnosis := "diag2" }] }),
   ("A2", { result := { id := "r", level := "ERROR", description := "d3",
                        remediation := "rem3", diagnosis := "diag3" },
            messages := [] })]

/-- Witness for C1 on the sample report. -/
theorem collect_report_level_max_witness :
    valid_action_levels sampleActions ≠ [] ∧
    (∃ status, pipeline_status sampleActions = some status ∧
      status ∈ valid_action_levels sampleActions ∧
      ∀ level ∈ valid_action_levels sampleActions,
        statusRank level ≤ statusRank status) :=
  ⟨by decide, collect_report_level_max sampleActions (by decide)⟩

/-- C4: when the filtered severity list is empty (for example on a report
with zero actions), the aggregation pipeline produces no status at all: the
`[0]` access raises and the error propagates, no default status is
fabricated. -/
theorem pipeline_status_empty (action_results : Actions)
    (h : valid_action_levels action_results = []) :
    pipeline_status action_results = none := by
  simp [pipeline_status, collect_report_level, h, List.mergeSort_nil]

/-- Witness for C4 on the report with zero actions. -/
theorem pipeline_status_empty_witness :
    valid_action_levels ([] : Actions) = [] ∧ pipeline_status ([] : Actions) = none :=
  ⟨rfl, pipeline_status_empty [] rfl⟩

/-- C8: for every recognized severity level, the generated human message is
the total three band function of the rank relative to the WARNING rank 51:
below, a ready for conversion sentence; equal, the warnings sentence; above,
the cannot proceed sentence. -/
theorem generate_report_message_bands (s : String) (r : Nat)
    (h : STATUS_CODE.lookup s = some r) :
    generate_report_message s = some (
      if r < 51 then "No problems found. The system is ready for conversion."
      else if r = 51 then "The conversion can proceed. However, there is one or more warnings about issues that might occur after the conversion."
      else "The conversion cannot proceed. You must resolve existing issues to perform the conversion.") := by
  rcases STATUS_CODE_lookup_cases s r h with ⟨rfl, rfl⟩ | ⟨rfl, rfl⟩ | ⟨rfl, rfl⟩ |
    ⟨rfl, rfl⟩ | ⟨rfl, rfl⟩ | ⟨rfl, rfl⟩ <;> rfl

/-- Witness for C8 at the WARNING level. -/
theorem generate_report_message_bands_witness :
    STATUS_CODE.lookup "WARNING" = some 51 ∧
    generate_report_message "WARNING" = some (
      if 51 < 51 then "No problems found. The system is ready for conversion."
      else if 51 = 51 then "The conversion can proceed. However, there is one or more warnings about issues that might occur after the conversion."
      else "The conversion cannot proceed. You must resolve existing issues to perform the conversion.") :=
  ⟨rfl, generate_report_message_bands "WARNING" 51 rfl⟩

/-- C5: for every raw report with at least one action, the number of
normalized entries equals the sum over actions of one plus the number of
messages of the action. -/
theorem transform_raw_data_length (actions : Actions) (_h : actions ≠ []) :
    ∃ entries, transform_raw_data actions = some entries ∧
      entries.length = (actions.map (fun p => 1 + p.2.messages.length)).sum := by
  refine ⟨_, transform_raw_data_eq actions, ?_⟩
  rw [List.length_flatMap]
  congr 1
  apply List.map_congr_left
  intro p _
  simp only [Function.comp_apply, List.length_append, List.length_map,
    List.length_cons, List.length_nil]
  omega

/-- Witness for C5 on the sample report: 2 actions, 3 entries. -/
theorem transform_raw_data_length_witness :
    sampleActions ≠ [] ∧
    ∃ entries, transform_raw_data sampleActions = some entries ∧
      entries.length = (sampleActions.map (fun p => 1 + p.2.messages.length)).sum :=
  ⟨by simp [sampleActions], transform_raw_data_length sampleActions (by simp [sampleActions])⟩

/-- C6: the message transform derives `key = action_id ++ "::" ++ id`, drops
`id`, renames `level` to `severity` and `description` to `summary` with
unchanged values, replaces the flat `remediation` and `diagnosis` fields by
the nested `detail` object, and appends an empty `modifiers` list. -/
theorem apply_message_transform_shape
    (msgId level description remediation diagnosis action_id : String) :
    ∃ entry,
      apply_message_transform
        [("id", .str msgId), ("level", .str level), ("description", .str description),
         ("remediation", .str remediation), ("diagnosis", .str diagnosis)] action_id
        = some entry
      ∧ entry
        = [("key", .str (action_id ++ "::" ++ msgId)),
           ("severity", .str level),
           ("summary", .str description),
           ("detail", .dict [("remediation", .dict [("context", .str remediation)]),
                             ("diagnosis", .dict [("context", .str diagnosis)])]),
           ("modifiers", .list [])]
      ∧ dictGet entry "id" = none
      ∧ dictGet entry "level" = none
      ∧ dictGet entry "description" = none
      ∧ dictGet entry "remediation" = none
      ∧ dictGet entry "diagnosis" = none :=
  ⟨_, rfl, rfl, rfl, rfl, rfl, rfl, rfl⟩

/-- C7: in the serialized output, `report_json` is non null exactly when the
entry list is non empty, and then it carries the fixed format version and
id together with the entries. The hypotheses are the constructor
invariants: `report_json` starts as `None` and the two format fields hold
the constants. -/
theorem to_dict_report_json_iff (oc : OutputCollector)
    (hjson : oc.report_json = none)
    (hversion : oc.tasks_format_version = "1.0")
    (hid : oc.tasks_format_id = "oamg-format") :
    ((oc.to_dict.report_json ≠ none) ↔ (∃ e es, oc.entries = some (e :: es)))
    ∧ ∀ e es, oc.entries = some (e :: es) →
        oc.to_dict.report_json
          = some { tasks_format_version := "1.0", tasks_format_id := "oamg-format",
                   entries := e :: es } := by
  rcases hoe : oc.entries with _ | es'
  · simp [OutputCollector.to_dict, hoe, hjson]
  · rcases es' with _ | ⟨e, es⟩
    · simp [OutputCollector.to_dict, hoe, hjson]
    · simp [OutputCollector.to_dict, hoe, hversion, hid]

/-- A collector as constructed in `main` with one (empty) entry. -/
def sampleCollector : OutputCollector := { entries := some [[]] }

/-- Witness for C7 on a collector holding one entry. -/
theorem to_dict_report_json_iff_witness :
    sampleCollector.report_json = none ∧
    sampleCollector.tasks_format_version = "1.0" ∧
    sampleCollector.tasks_format_id = "oamg-format" ∧
    (((sampleCollector.to_dict.report_json ≠ none)
        ↔ (∃ e es, sampleCollector.entries = some (e :: es)))
      ∧ ∀ e es, sampleCollector.entries = some (e :: es) →
          sampleCollector.to_dict.report_json
            = some { tasks_format_version := "1.0", tasks_format_id := "oamg-format",
                     entries := e :: es }) :=
  ⟨rfl, rfl, rfl, to_dict_report_json_iff sampleCollector rfl rfl rfl⟩

/-- C2: every failure caught at the try/except boundary of `main` yields an
output with status ERROR, the failure text in the `report` field, no
entries, and a null `report_json` after serialization; the handler is a
total function, so no exception escapes. -/
theorem main_output_error (failure : Failure) :
    (main_output (.error failure)).status = "ERROR"
    ∧ (main_output (.error failure)).report = failure.text
    ∧ (main_output (.error failure)).entries = none
    ∧ ((main_output (.error failure)).to_dict).report_json = none := by
  cases failure <;> exact ⟨rfl, rfl, rfl, rfl⟩

/-- Counterexample to C3: for the unexpected failure with text "boom", the
`message` field of the emitted output does not receive the stringified
failure text (it stays empty). -/
theorem main_output_message_counterexample :
    (main_output (.error (.unexpected "boom"))).message ≠ "boom" := by decide

/-- C3 amended: the stringified text of an unexpected failure is placed
into the `report` field of the output; the `message` field stays empty. -/
theorem main_output_report_field (text : String) :
    (main_output (.error (.unexpected text))).report = text
    ∧ (main_output (.error (.unexpected text))).message = "" :=
  ⟨rfl, rfl⟩

/-- Two actions with pairwise distinct (action id, message id) pairs whose
derived keys nevertheless collide, because one action id contains the
separator. -/
def collidingActions : Actions :=
  [("a", { result := { id := "b::c", level := "SUCCESS", description := "",
                       remediation := "", diagnosis := "" },
           messages := [] }),
   ("a::b", { result := { id := "c", level := "SUCCESS", description := "",
                          remediation := "", diagnosis := "" },
              messages := [] })]

/-- Counterexample to C9 as stated: all (action id, message id) pairs of
`collidingActions` are distinct, yet both normalized entries carry the key
"a::b::c". -/
theorem transform_keys_counterexample :
    (actionPairs collidingActions).Nodup ∧
    ∃ entries, transform_raw_data collidingActions = some entries ∧
      ¬ (entries.map (fun d => dictGet d "key")).Nodup := by
  refine ⟨by decide, _, transform_raw_data_eq collidingActions, ?_⟩
  rw [transform_keys]
  show ¬ ([some (Value.str "a::b::c"), some (Value.str "a::b::c")] : List (Option Value)).Nodup
  intro h
  exact (List.nodup_cons.mp h).1 (List.mem_singleton.mpr rfl)

/-- C9 amended: if all (action id, message id) pairs are pairwise distinct
and no action id contains the colon character, then no two normalized
entries share a `key`. -/
theorem transform_keys_nodup (actions : Actions)
    (hpairs : (actionPairs actions).Nodup)
    (hcolon : ∀ p ∈ actions, (':' : Char) ∉ p.1.data) :
    ∃ entries, transform_raw_data actions = some entries ∧
      (entries.map (fun d => dictGet d "key")).Nodup := by
  refine ⟨_, transform_raw_data_eq actions, ?_⟩
  rw [transform_keys]
  refine List.Nodup.map_on ?_ hpairs
  intro x hx y hy hxy
  have hstr : x.1 ++ "::" ++ x.2 = y.1 ++ "::" ++ y.2 := by simpa using hxy
  obtain ⟨px, hpx, hex⟩ := actionPairs_fst actions x hx
  obtain ⟨py, hpy, hey⟩ := actionPairs_fst actions y hy
  have hx1 : (':' : Char) ∉ x.1.data := by rw [hex]; exact hcolon px hpx
  have hy1 : (':' : Char) ∉ y.1.data := by rw [hey]; exact hcolon py hpy
  obtain ⟨h1, h2⟩ := colon_sep_injective x.1 y.1 x.2 y.2 hx1 hy1 hstr
  exact Prod.ext h1 h2

/-- Witness for the amended C9 on the sample report. -/
theorem transform_keys_nodup_witness :
    (actionPairs sampleActions).Nodup ∧
    (∀ p ∈ sampleActions, (':' : Char) ∉ p.1.data) ∧
    (∃ entries, transform_raw_data sampleActions = some entries ∧
      (entries.map (fun d => dictGet d "key")).Nodup) :=
  ⟨by decide, by decide, transform_keys_nodup sampleActions (by decide) (by decide)⟩

/-- C10: the normalized entries come grouped by action in mapping iteration
order; within one action the transformed messages come first, in sequence
order, and the entry of the own result of the action comes last. -/
theorem transform_raw_data_order (actions : Actions) :
    transform_raw_data actions
      = some (actions.flatMap
          (fun p => p.2.messages.map (fun m => transformedDict m p.1)
            ++ [transformedDict p.2.result p.1])) :=
  transform_raw_data_eq actions
